import Mathlib

/-!
Verification of the microbus-io/errors library (Go) against its specification.

The Go code is shallowly embedded: Go error values (plain errors, `fmt.Errorf`
wrappers, `errors.Join` aggregates, and `*TracedError` values) are modelled by
the inductive type `GoVal`, which also covers the non-error values that can
appear in the variadic argument lists of `New` (ints, strings, booleans, and
other types).  Pure functions of the source are translated to Lean functions.
Go `nil` errors are `Option.none`.  Maps are modelled as insertion-ordered
association lists with update-in-place semantics.  The runtime stack walk of
`traceCaller` (trace.go) is modelled by passing the frame found for the caller
as an explicit parameter; the source's walk always appends exactly the first
frame that survives its filter.  Go's value equality on error values (pointer
equality for the pointer-shaped errors involved) is modelled by structural
equality, with fresh allocations distinguished by explicit `id` tags.
-/

/-- StackFrame is a single stack location (tracederror.go). -/
structure StackFrame where
  function : String
  file : String
  line : Int
  deriving DecidableEq, Repr

/-- Go values as they appear in this library: the four argument categories of
`New` (integer, error, string, any other type) and the error shapes the
library manipulates.  `base` models an error created by `stderrors.New` (the
`id` tag distinguishes distinct allocations), `errorf` models a `fmt.Errorf`
result together with the errors it wraps via `%w`, `joined` models the
aggregate produced by `stderrors.Join`, and `traced` models `*TracedError`
with its five fields `Err`, `Stack`, `StatusCode`, `Trace`, `Properties`.
A `nil` `Stack` slice is `Option.none`; the `Properties` map is an
association list (the nil map and the empty map are identified, which is
sound because the source only ever observes `len(Properties)` and key
lookups). -/
inductive GoVal where
  | int (n : Int)
  | str (s : String)
  | bool (b : Bool)
  | otherv (tag : Nat)
  | base (id : Nat) (msg : String)
  | errorf (msg : String) (wrapped : List GoVal)
  | joined (errs : List GoVal)
  | traced (err : Option GoVal) (stack : Option (List StackFrame)) (statusCode : Int)
      (trace : String) (props : List (String × GoVal))

/-- The all-zero trace placeholder (tracederror.go line 28). -/
def zeroTrace : String := "00000000000000000000000000000000"

/-- Whether a Go value is an error value (satisfies the `error` interface). -/
def isGoError : GoVal → Bool
  | .base .. => true
  | .errorf .. => true
  | .joined _ => true
  | .traced .. => true
  | _ => false

/-- One character of the `isHex` test inside `New` (tracederror.go lines
123-131).  The source rejects a string when some byte satisfies
`(c<'0'||c>'9') && (c<'a'||c>'f') && (c<'A'||c>'F')`; this is the positive
form of the per-character test. -/
def isHexDigit (c : Char) : Bool :=
  (decide ('0' ≤ c) && decide (c ≤ '9')) ||
  (decide ('a' ≤ c) && decide (c ≤ 'f')) ||
  (decide ('A' ≤ c) && decide (c ≤ 'F'))

/-- `isHex` from `New`: every character is a hexadecimal digit. -/
def isHexString (s : String) : Bool :=
  s.data.all isHexDigit

/-- `strings.Count(pattern, "%")`: the number of percent characters. -/
def countPct : List Char → Nat
  | [] => 0
  | '%' :: rest => countPct rest + 1
  | _ :: rest => countPct rest

/-- `strings.Count(pattern, "%%")`: non-overlapping occurrences, scanned left
to right. -/
def countPctPct : List Char → Nat
  | '%' :: '%' :: rest => countPctPct rest + 1
  | _ :: rest => countPctPct rest
  | [] => 0

/-- The `statusText` table (a fixed map from status code to reason phrase);
absent codes yield the empty string, as a Go map lookup does. -/
def statusText : Int → String
  | 100 => "continue"
  | 101 => "switching protocol"
  | 102 => "processing"
  | 103 => "early hints"
  | 200 => "ok"
  | 201 => "created"
  | 202 => "accepted"
  | 203 => "non-authoritative information"
  | 204 => "no content"
  | 205 => "reset content"
  | 206 => "partial content"
  | 300 => "multiple choices"
  | 301 => "moved permanently"
  | 302 => "found"
  | 303 => "see other"
  | 304 => "not modified"
  | 307 => "temporary redirect"
  | 308 => "permanent redirect"
  | 400 => "bad request"
  | 401 => "unauthorized"
  | 402 => "payment required"
  | 403 => "forbidden"
  | 404 => "not found"
  | 405 => "method not allowed"
  | 406 => "not acceptable"
  | 407 => "proxy authentication required"
  | 408 => "request timeout"
  | 409 => "conflict"
  | 410 => "gone"
  | 411 => "length required"
  | 412 => "preconditions failed"
  | 413 => "content too large"
  | 414 => "uri too long"
  | 415 => "unsupported media type"
  | 416 => "range not satisfiable"
  | 417 => "expectation failed"
  | 418 => "im a teapot"
  | 421 => "misdirected request"
  | 422 => "unprocessable content"
  | 423 => "locked"
  | 424 => "failed dependency"
  | 425 => "too early"
  | 426 => "upgrade required"
  | 428 => "precondition required"
  | 429 => "too many requests"
  | 431 => "request header fields too large"
  | 451 => "unavailable for legal reasons"
  | 500 => "internal server error"
  | 501 => "not implemented"
  | 502 => "bad gateway"
  | 503 => "service unavailable"
  | 504 => "gateway timeout"
  | 505 => "http version not supported"
  | 506 => "variant also negotiates"
  | 507 => "insufficient storage"
  | 508 => "loop detected"
  | 510 => "not extended"
  | 511 => "network authentication required"
  | _ => ""

mutual

/-- The `Error()` method of each error shape: `base` and `errorf` return
their message, `joined` concatenates the messages of its members with
newlines (as `stderrors.Join`'s result does), and `TracedError.Error`
delegates to the wrapped cause (tracederror.go lines 157-159).  A traced
error with a nil cause yields the empty string (in Go this would panic; the
library never produces such a value). -/
def errMsg : GoVal → String
  | .base _ m => m
  | .errorf m _ => m
  | .joined es => errMsgList es
  | .traced (Option.some c) _ _ _ _ => errMsg c
  | _ => ""

/-- Newline-concatenated messages of a list of errors. -/
def errMsgList : List GoVal → String
  | [] => ""
  | [e] => errMsg e
  | e :: rest => errMsg e ++ "\n" ++ errMsgList rest

end

/-- How `fmt` renders one argument (simplified model of the standard
library's formatting, an external collaborator: error values render via
`Error()`, other values via their obvious textual form). -/
def goToString : GoVal → String
  | .int n => toString n
  | .str s => s
  | .bool b => toString b
  | .otherv tag => "value" ++ toString tag
  | e => errMsg e

/-- Simplified model of `fmt.Errorf` (standard library, an external
collaborator): returns the formatted message and the list of arguments
wrapped via `%w` directives.  `%%` emits a literal percent and consumes no
argument; every other directive consumes one argument.  No claim depends on
the message text this produces. -/
def goFormat : List Char → List GoVal → String × List GoVal
  | [], _ => ("", [])
  | '%' :: '%' :: rest, args =>
      let r := goFormat rest args
      ("%" ++ r.1, r.2)
  | '%' :: v :: rest, a :: args =>
      let r := goFormat rest args
      if v = 'w' ∧ isGoError a = true then (goToString a ++ r.1, a :: r.2)
      else (goToString a ++ r.1, r.2)
  | '%' :: v :: rest, [] =>
      let r := goFormat rest []
      ("%!" ++ String.mk [v] ++ "(MISSING)" ++ r.1, r.2)
  | c :: rest, args =>
      let r := goFormat rest args
      (String.mk [c] ++ r.1, r.2)

/-- The five fields of a `TracedError` under construction. -/
structure TE where
  err : Option GoVal
  stack : Option (List StackFrame)
  statusCode : Int
  trace : String
  props : List (String × GoVal)

/-- Rebuild the error value from its fields. -/
def TE.toVal (t : TE) : GoVal := .traced t.err t.stack t.statusCode t.trace t.props

/-- View a traced error value as its fields (meaningful on `.traced` only). -/
def GoVal.toTE : GoVal → TE
  | .traced e st sc tr pr => ⟨e, st, sc, tr, pr⟩
  | v => ⟨Option.some v, Option.none, 0, "", []⟩

/-- Map lookup on the association-list model of `map[string]any`. -/
def getProp : List (String × GoVal) → String → Option GoVal
  | [], _ => Option.none
  | (k', v) :: rest, k => if k' = k then Option.some v else getProp rest k

/-- Map assignment `m[k] = v`: update in place, or append a new key. -/
def setProp : List (String × GoVal) → String → GoVal → List (String × GoVal)
  | [], k, v => [(k, v)]
  | (k', v') :: rest, k, v =>
      if k' = k then (k, v) :: rest else (k', v') :: setProp rest k v

/-- `maps.Copy(dst, src)`: assign every entry of `src` into `dst` (entries of
`src` overwrite colliding keys of `dst`). -/
def mapsCopy (dst src : List (String × GoVal)) : List (String × GoVal) :=
  src.foldl (fun d kv => setProp d kv.1 kv.2) dst

/-- The `case int` arm of `New`'s classification loop (tracederror.go lines
98-103): record the status code; if no cause exists yet, synthesize one from
the status-text table. -/
def intStep (acc : TE) (k : Int) : TE :=
  { acc with
    statusCode := k,
    err := match acc.err with
      | Option.none => Option.some (.base 0 (statusText k))
      | Option.some e => Option.some e }

/-- The `case error` arm of `New`'s classification loop (tracederror.go lines
104-121): the first error becomes the cause, later errors are wrapped onto it
with `fmt.Errorf("%w: %w", ...)`; if the argument is a `*TracedError`, its
status code is copied when none is set yet, its trace ID is copied when the
accumulating one is unset or the all-zero placeholder, its properties are
copied into the accumulating bag, and its stack replaces the accumulating
stack wholesale. -/
def errStep (acc : TE) (k : GoVal) : TE :=
  let acc1 : TE := { acc with
    err := match acc.err with
      | Option.none => Option.some k
      | Option.some e => Option.some (.errorf (errMsg e ++ ": " ++ errMsg k) [e, k]) }
  match k with
  | .traced _ tstack tsc ttrace tprops =>
      { acc1 with
        statusCode := if acc1.statusCode = 0 then tsc else acc1.statusCode,
        trace := if acc1.trace = "" ∨ acc1.trace = zeroTrace then ttrace else acc1.trace,
        props := mapsCopy acc1.props tprops,
        stack := tstack }
  | _ => acc1

/-- The classification loop of `New` (tracederror.go lines 93-146) over the
arguments that were not consumed as format parameters.  A string of exactly
32 hexadecimal characters is a trace ID; any other string is a property key
consuming the following argument as its value (or the empty string when it is
the last argument); arguments of any other type are stored under the
`!BADKEY` sentinel. -/
def newLoop : List GoVal → TE → TE
  | [], acc => acc
  | GoVal.int k :: rest, acc => newLoop rest (intStep acc k)
  | GoVal.str k :: rest, acc =>
      if k.length = 32 ∧ isHexString k = true then
        newLoop rest { acc with trace := k }
      else
        match rest with
        | v :: rest2 => newLoop rest2 { acc with props := setProp acc.props k v }
        | [] => { acc with props := setProp acc.props k (.str "") }
  | a :: rest, acc =>
      if isGoError a = true then newLoop rest (errStep acc a)
      else newLoop rest { acc with props := setProp acc.props "!BADKEY" a }

/-- The number of leading arguments consumed as format parameters by `New`
(tracederror.go lines 85-86): percent count minus twice the count of literal
percent-pairs, clamped to the number of arguments. -/
def pctCount (pattern : String) (args : List GoVal) : Nat :=
  min (countPct pattern.data - 2 * countPctPct pattern.data) args.length

/-- `New` up to but not including the final stack capture (tracederror.go
lines 84-152): format the message unless the pattern is empty, classify the
remaining arguments, then fill in the fallback cause and the default status
code 500. -/
def buildTE (pattern : String) (args : List GoVal) : TE :=
  let pct := pctCount pattern args
  let acc0 : TE :=
    { err := if pattern = "" then Option.none
      else Option.some (.errorf (goFormat pattern.data (args.take pct)).1
        (goFormat pattern.data (args.take pct)).2),
      stack := Option.none, statusCode := 0, trace := "", props := [] }
  let acc := newLoop (args.drop pct) acc0
  let acc1 : TE := { acc with
    err := match acc.err with
      | Option.none => Option.some (.base 0 "unspecified error")
      | Option.some e => Option.some e }
  { acc1 with statusCode := if acc1.statusCode = 0 then 500 else acc1.statusCode }

/-- `Convert` (part_001 lines 138-152), as a value-level function: nil stays
nil, a `*TracedError` is returned with a zero status code normalized to 500,
and any other error is wrapped fresh with status 500 and no stack. -/
def Convert : Option GoVal → Option GoVal
  | Option.none => Option.none
  | Option.some (.traced e st sc tr pr) =>
      Option.some (.traced e st (if sc = 0 then 500 else sc) tr pr)
  | Option.some v => Option.some (.traced (Option.some v) Option.none 500 "" [])

/-- `append(stack, frame)`: a nil slice grows into a fresh one-element
slice. -/
def appendFrame (st : Option (List StackFrame)) (fr : StackFrame) : Option (List StackFrame) :=
  Option.some (st.getD [] ++ [fr])

/-- `traceCaller` (trace.go lines 25-47): convert the error and append the
first stack frame of the caller that survives the filter.  The runtime walk
is modelled by receiving that frame as the parameter `fr`. -/
def traceCaller (fr : StackFrame) (err : Option GoVal) : Option GoVal :=
  match err with
  | Option.none => Option.none
  | Option.some e =>
      match Convert (Option.some e) with
      | Option.some (.traced c st sc tr pr) =>
          Option.some (.traced c (appendFrame st fr) sc tr pr)
      | x => x

/-- `New` (tracederror.go lines 84-154); `fr` is the caller's stack frame. -/
def New (fr : StackFrame) (pattern : String) (args : List GoVal) : Option GoVal :=
  traceCaller fr (Option.some (buildTE pattern args).toVal)

/-- `Trace` (part_001 lines 128-133): nil-safe; otherwise `New` with an empty
pattern and the error prepended to the arguments. -/
def Trace (fr : StackFrame) (err : Option GoVal) (a : List GoVal) : Option GoVal :=
  match err with
  | Option.none => Option.none
  | Option.some e => New fr "" (e :: a)

/-- `stderrors.Join` (standard library): nil when every input is nil,
otherwise the aggregate of the non-nil inputs in order. -/
def stdJoin (errs : List (Option GoVal)) : Option GoVal :=
  match errs.filterMap id with
  | [] => Option.none
  | ne => Option.some (.joined ne)

/-- `Join` (part_001 lines 102-119): count the non-nil inputs; zero gives
nil, exactly one gives that error passed through `traceCaller`, and more give
the `stderrors.Join` aggregate passed through `traceCaller`. -/
def Join (fr : StackFrame) (errs : List (Option GoVal)) : Option GoVal :=
  match errs.filterMap id with
  | [] => Option.none
  | [e] => traceCaller fr (Option.some e)
  | _ => traceCaller fr (stdJoin errs)

/-- The stored `StatusCode` field of an error value (0 when the value is nil
or not a `*TracedError`). -/
def storedStatus : Option GoVal → Int
  | Option.some (.traced _ _ sc _ _) => sc
  | _ => 0

/-- The stored `Stack` field of an error value. -/
def storedStack : Option GoVal → Option (List StackFrame)
  | Option.some (.traced _ st _ _ _) => st
  | _ => Option.none

/-- The stored `Trace` field of an error value. -/
def storedTrace : Option GoVal → String
  | Option.some (.traced _ _ _ tr _) => tr
  | _ => ""

/-- The stored `Properties` field of an error value. -/
def storedProps : Option GoVal → List (String × GoVal)
  | Option.some (.traced _ _ _ _ pr) => pr
  | _ => []

/-- The stored `Err` field of an error value. -/
def storedErr : Option GoVal → Option GoVal
  | Option.some (.traced e _ _ _ _) => e
  | _ => Option.none

/-- `StatusCode` (part_001 lines 157-162): 0 for nil, otherwise the status
code of the converted error. -/
def StatusCode (err : Option GoVal) : Int :=
  match err with
  | Option.none => 0
  | Option.some e => storedStatus (Convert (Option.some e))

/-- The success relation of the standard `errors.Is` chain walk (an external
collaborator delegated to by `Is` in part_001 lines 96-98): the target is
found either by value equality, or through the single-error `Unwrap` of a
`*TracedError`, or through the multi-error unwrap of a `fmt.Errorf` wrapper
or a `stderrors.Join` aggregate. -/
inductive ErrIs : GoVal → GoVal → Prop where
  | eq (e : GoVal) : ErrIs e e
  | tracedStep {c t : GoVal} {st sc tr pr} (h : ErrIs c t) :
      ErrIs (.traced (Option.some c) st sc tr pr) t
  | errorfStep {w t : GoVal} {m ws} (hw : w ∈ ws) (h : ErrIs w t) : ErrIs (.errorf m ws) t
  | joinedStep {e t : GoVal} {es} (he : e ∈ es) (h : ErrIs e t) : ErrIs (.joined es) t

/-- `errors.Is` lifted to a possibly-nil error. -/
def OptErrIs : Option GoVal → GoVal → Prop
  | Option.none, _ => False
  | Option.some e, t => ErrIs e t

/-- A JSON value on the wire: the built-in fields are a string (`error`,
`trace`), an integer (`statusCode`), or a stack, and property values travel
as their (opaque) JSON encoding. -/
inductive JVal where
  | jstr (s : String)
  | jint (n : Int)
  | jstack (st : List StackFrame)
  | jany (v : GoVal)

/-- Wire-map lookup. -/
def getWire : List (String × JVal) → String → Option JVal
  | [], _ => Option.none
  | (k', v) :: rest, k => if k' = k then Option.some v else getWire rest k

/-- Wire-map assignment. -/
def setWire : List (String × JVal) → String → JVal → List (String × JVal)
  | [], k, v => [(k, v)]
  | (k', v') :: rest, k, v =>
      if k' = k then (k, v) :: rest else (k', v') :: setWire rest k v

/-- Wire-map `delete`. -/
def delWire : List (String × JVal) → String → List (String × JVal)
  | [], _ => []
  | (k', v) :: rest, k =>
      if k' = k then delWire rest k else (k', v) :: delWire rest k

/-- The message of a possibly-nil cause (`Error()`; nil never occurs after
construction). -/
def errMsgOpt : Option GoVal → String
  | Option.some c => errMsg c
  | Option.none => ""

/-- `MarshalJSON` (tracederror.go lines 195-217), with the JSON object
modelled as a wire map: copy the properties, then overwrite `error` with the
cause's message, and set or delete `statusCode`, `stack` and `trace`
depending on whether they are set. -/
def MarshalJSON (e : TE) : List (String × JVal) :=
  let m : List (String × JVal) := e.props.foldl (fun m kv => setWire m kv.1 (.jany kv.2)) []
  let m := setWire m "error" (.jstr (errMsgOpt e.err))
  let m := if e.statusCode ≠ 0 then setWire m "statusCode" (.jint e.statusCode)
    else delWire m "statusCode"
  let m := match e.stack with
    | Option.some st => setWire m "stack" (.jstack st)
    | Option.none => delWire m "stack"
  let m := if e.trace ≠ "" ∧ e.trace ≠ zeroTrace then setWire m "trace" (.jstr e.trace)
    else delWire m "trace"
  m

/-- The `StreamedError` schema (tracederror.go lines 263-269). -/
structure StreamedError where
  error : String
  statusCode : Int
  trace : String
  stack : Option (List StackFrame)

/-- Unmarshaling wire data into the `StreamedError` schema; absent fields
take their zero values. -/
def decodeStreamed (w : List (String × JVal)) : StreamedError :=
  { error := match getWire w "error" with | Option.some (.jstr s) => s | _ => "",
    statusCode := match getWire w "statusCode" with | Option.some (.jint n) => n | _ => 0,
    trace := match getWire w "trace" with | Option.some (.jstr s) => s | _ => "",
    stack := match getWire w "stack" with | Option.some (.jstack st) => Option.some st | _ => Option.none }

/-- Decoding of a wire value back into a Go value (property payloads decode
to themselves in this model). -/
def jToGo : JVal → GoVal
  | .jstr s => .str s
  | .jint n => .int n
  | .jstack _ => .otherv 0
  | .jany v => v

/-- `UnmarshalJSON` (tracederror.go lines 221-247): decode the typed schema,
synthesize a fresh generic cause from the message text, and keep the
remaining wire entries, minus the four reserved keys, as the property bag. -/
def UnmarshalJSON (w : List (String × JVal)) : TE :=
  let j := decodeStreamed w
  let m := delWire (delWire (delWire (delWire w "error") "statusCode") "stack") "trace"
  { err := Option.some (.base 0 j.error),
    stack := j.stack,
    statusCode := j.statusCode,
    trace := j.trace,
    props := m.map (fun kv => (kv.1, jToGo kv.2)) }

/-- The `*TracedError` branch of `Convert` (part_001 lines 142-147) with the
heap made explicit: the heap is a list of `TracedError` objects and `p` is
the pointer passed in.  The function returns the updated heap together with
the returned pointer; when the stored status code is zero it writes 500 into
the object's own field. -/
def ConvertHeap (h : List TE) (p : Nat) : List TE × Nat :=
  match h.get? p with
  | Option.some t =>
      if t.statusCode = 0 then (h.set p { t with statusCode := 500 }, p) else (h, p)
  | Option.none => (h, p)

/-- The last integer of an argument list, with default `d` (helper for
stating the spec's "last integer encountered wins"). -/
def lastIntD (d : Int) : List GoVal → Int
  | [] => d
  | GoVal.int k :: rest => lastIntD k rest
  | _ :: rest => lastIntD d rest

/-- Whether an argument is a `*TracedError`. -/
def isTracedB : GoVal → Bool
  | .traced .. => true
  | _ => false

/-- Whether an argument is a string that the loop treats as a property key
(a string that is not a 32-character hexadecimal trace ID). -/
def isKeyStringB : GoVal → Bool
  | .str s => !(s.length == 32 && isHexString s)
  | _ => false

/-- Whether an argument falls into the loop's `default` arm (not an integer,
error, or string). -/
def isOtherTypeB : GoVal → Bool
  | .bool _ => true
  | .otherv _ => true
  | _ => false

/-- The accumulator `&TracedError{}` together with the formatted message, as
it stands when `New`'s classification loop starts. -/
def initTE (pattern : String) (args : List GoVal) : TE :=
  { err := if pattern = "" then Option.none
    else Option.some (.errorf (goFormat pattern.data (args.take (pctCount pattern args))).1
      (goFormat pattern.data (args.take (pctCount pattern args))).2),
    stack := Option.none, statusCode := 0, trace := "", props := [] }

/-- The accumulator as it stands when `New`'s classification loop ends. -/
def loopTE (pattern : String) (args : List GoVal) : TE :=
  newLoop (args.drop (pctCount pattern args)) (initTE pattern args)

/-- A concrete stack frame used by the concrete instantiations below. -/
def frA : StackFrame := ⟨"errors.TestCaller", "errors_test.go", 11⟩

/-! Helper lemmas about the association-list maps. -/

theorem getProp_setProp_self (l : List (String × GoVal)) (k : String) (v : GoVal) :
    getProp (setProp l k v) k = Option.some v := by
  induction l with
  | nil => simp [setProp, getProp]
  | cons kv rest ih =>
      obtain ⟨k', v'⟩ := kv
      by_cases h : k' = k
      · simp [setProp, getProp, h]
      · simp [setProp, getProp, h, ih]

theorem getProp_setProp_ne (l : List (String × GoVal)) (k k' : String) (v : GoVal)
    (h : k ≠ k') : getProp (setProp l k v) k' = getProp l k' := by
  induction l with
  | nil => simp [setProp, getProp, h]
  | cons kv rest ih =>
      obtain ⟨k0, v0⟩ := kv
      by_cases h0 : k0 = k
      · subst h0
        simp [setProp, getProp, h]
      · simp [setProp, getProp, h0, ih]

theorem setProp_setProp_same (l : List (String × GoVal)) (k : String) (v v' : GoVal) :
    setProp (setProp l k v) k v' = setProp l k v' := by
  induction l with
  | nil => simp [setProp]
  | cons kv rest ih =>
      obtain ⟨k0, v0⟩ := kv
      by_cases h0 : k0 = k
      · simp [setProp, h0]
      · simp [setProp, h0, ih]

theorem getProp_eq_none_of_not_mem (l : List (String × GoVal)) (k : String)
    (h : k ∉ l.map Prod.fst) : getProp l k = Option.none := by
  induction l with
  | nil => simp [getProp]
  | cons kv rest ih =>
      obtain ⟨k0, v0⟩ := kv
      simp only [List.map_cons, List.mem_cons] at h
      push_neg at h
      have hne : k0 ≠ k := fun hk => h.1 hk.symm
      simp [getProp, hne, ih h.2]

theorem getProp_mapsCopy (dst src : List (String × GoVal)) (k : String)
    (h : (src.map Prod.fst).Nodup) :
    getProp (mapsCopy dst src) k = (getProp src k).or (getProp dst k) := by
  induction src generalizing dst with
  | nil => simp [mapsCopy, getProp]
  | cons kv rest ih =>
      obtain ⟨k0, v0⟩ := kv
      simp only [List.map_cons, List.nodup_cons] at h
      have hrec := ih (setProp dst k0 v0) h.2
      have hstep : mapsCopy dst ((k0, v0) :: rest) = mapsCopy (setProp dst k0 v0) rest := rfl
      rw [hstep, hrec]
      by_cases hk : k0 = k
      · subst hk
        have hnone : getProp rest k0 = Option.none :=
          getProp_eq_none_of_not_mem rest k0 h.1
        simp [getProp, hnone, getProp_setProp_self]
      · simp [getProp, hk, getProp_setProp_ne dst k0 k v0 hk]

/-! Helper lemmas about the wire map. -/

theorem getWire_setWire_self (l : List (String × JVal)) (k : String) (v : JVal) :
    getWire (setWire l k v) k = Option.some v := by
  induction l with
  | nil => simp [setWire, getWire]
  | cons kv rest ih =>
      obtain ⟨k', v'⟩ := kv
      by_cases h : k' = k
      · simp [setWire, getWire, h]
      · simp [setWire, getWire, h, ih]

theorem getWire_setWire_ne (l : List (String × JVal)) (k k' : String) (v : JVal)
    (h : k ≠ k') : getWire (setWire l k v) k' = getWire l k' := by
  induction l with
  | nil => simp [setWire, getWire, h]
  | cons kv rest ih =>
      obtain ⟨k0, v0⟩ := kv
      by_cases h0 : k0 = k
      · subst h0
        simp [setWire, getWire, h]
      · simp [setWire, getWire, h0, ih]

theorem getWire_delWire_self (l : List (String × JVal)) (k : String) :
    getWire (delWire l k) k = Option.none := by
  induction l with
  | nil => simp [delWire, getWire]
  | cons kv rest ih =>
      obtain ⟨k0, v0⟩ := kv
      by_cases h0 : k0 = k
      · simp [delWire, h0, ih]
      · simp [delWire, getWire, h0, ih]

theorem getWire_delWire_ne (l : List (String × JVal)) (k k' : String) (h : k ≠ k') :
    getWire (delWire l k) k' = getWire l k' := by
  induction l with
  | nil => simp [delWire]
  | cons kv rest ih =>
      obtain ⟨k0, v0⟩ := kv
      by_cases h0 : k0 = k
      · subst h0
        simp [delWire, getWire, h, ih]
      · simp [delWire, getWire, h0, ih]

theorem getProp_map_jToGo (m : List (String × JVal)) (k : String) :
    getProp (m.map (fun kv => (kv.1, jToGo kv.2))) k = (getWire m k).map jToGo := by
  induction m with
  | nil => simp [getProp, getWire]
  | cons kv rest ih =>
      obtain ⟨k0, v0⟩ := kv
      by_cases h0 : k0 = k
      · simp [getProp, getWire, h0]
      · simp [getProp, getWire, h0, ih]

/-! Helper lemmas about conversion, tracing and construction. -/

theorem Convert_traced (e : Option GoVal) (st : Option (List StackFrame)) (sc : Int)
    (tr : String) (pr : List (String × GoVal)) :
    Convert (Option.some (.traced e st sc tr pr)) =
      Option.some (.traced e st (if sc = 0 then 500 else sc) tr pr) := rfl

theorem Convert_not_traced (v : GoVal) (h : isTracedB v = false) :
    Convert (Option.some v) = Option.some (.traced (Option.some v) Option.none 500 "" []) := by
  cases v <;> simp_all [Convert, isTracedB]

theorem convert_status_ne_zero (v : GoVal) :
    storedStatus (Convert (Option.some v)) ≠ 0 := by
  cases v <;> first
    | (simp only [Convert, storedStatus]; split <;> omega)
    | simp [Convert, storedStatus]

theorem traceCaller_traced (fr : StackFrame) (e : Option GoVal)
    (st : Option (List StackFrame)) (sc : Int) (tr : String) (pr : List (String × GoVal)) :
    traceCaller fr (Option.some (.traced e st sc tr pr)) =
      Option.some (.traced e (appendFrame st fr) (if sc = 0 then 500 else sc) tr pr) := rfl

theorem traceCaller_not_traced (fr : StackFrame) (v : GoVal) (h : isTracedB v = false) :
    traceCaller fr (Option.some v) =
      Option.some (.traced (Option.some v) (Option.some [fr]) 500 "" []) := by
  cases v <;> simp_all [traceCaller, Convert, isTracedB, appendFrame]

theorem traceCaller_status (fr : StackFrame) (v : GoVal) :
    storedStatus (traceCaller fr (Option.some v)) = storedStatus (Convert (Option.some v)) := by
  cases v <;> rfl

theorem buildTE_statusCode (pattern : String) (args : List GoVal) :
    (buildTE pattern args).statusCode =
      (if (loopTE pattern args).statusCode = 0 then 500
       else (loopTE pattern args).statusCode) := rfl

theorem buildTE_props (pattern : String) (args : List GoVal) :
    (buildTE pattern args).props = (loopTE pattern args).props := rfl

theorem buildTE_trace (pattern : String) (args : List GoVal) :
    (buildTE pattern args).trace = (loopTE pattern args).trace := rfl

theorem buildTE_status_ne_zero (pattern : String) (args : List GoVal) :
    (buildTE pattern args).statusCode ≠ 0 := by
  simp only [buildTE]
  split <;> omega

theorem New_eq (fr : StackFrame) (pattern : String) (args : List GoVal) :
    New fr pattern args = Option.some (.traced (buildTE pattern args).err
      (appendFrame (buildTE pattern args).stack fr) (buildTE pattern args).statusCode
      (buildTE pattern args).trace (buildTE pattern args).props) := by
  have h := buildTE_status_ne_zero pattern args
  simp [New, TE.toVal, traceCaller_traced, if_neg h]

theorem storedStatus_New (fr : StackFrame) (pattern : String) (args : List GoVal) :
    storedStatus (New fr pattern args) = (buildTE pattern args).statusCode := by
  rw [New_eq]
  rfl

theorem storedProps_New (fr : StackFrame) (pattern : String) (args : List GoVal) :
    storedProps (New fr pattern args) = (buildTE pattern args).props := by
  rw [New_eq]
  rfl

/-! Helper lemmas about the classification loop. -/

theorem errStep_not_traced (acc : TE) (k : GoVal) (h : isTracedB k = false) :
    (errStep acc k).statusCode = acc.statusCode ∧ (errStep acc k).trace = acc.trace ∧
    (errStep acc k).stack = acc.stack ∧ (errStep acc k).props = acc.props := by
  cases k <;> simp_all [errStep, isTracedB]

theorem errStep_traced (acc : TE) (te : Option GoVal) (ts : Option (List StackFrame))
    (tsc : Int) (ttr : String) (tpr : List (String × GoVal)) :
    (errStep acc (.traced te ts tsc ttr tpr)).statusCode =
        (if acc.statusCode = 0 then tsc else acc.statusCode)
  ∧ (errStep acc (.traced te ts tsc ttr tpr)).trace =
        (if acc.trace = "" ∨ acc.trace = zeroTrace then ttr else acc.trace)
  ∧ (errStep acc (.traced te ts tsc ttr tpr)).stack = ts
  ∧ (errStep acc (.traced te ts tsc ttr tpr)).props = mapsCopy acc.props tpr := by
  refine ⟨rfl, rfl, rfl, rfl⟩

theorem newLoop_status_lastInt (post : List GoVal) :
    ∀ acc : TE, (∀ a ∈ post, isTracedB a = false ∧ isKeyStringB a = false) →
    (newLoop post acc).statusCode = lastIntD acc.statusCode post := by
  induction post with
  | nil => intro acc _; rfl
  | cons a rest ih =>
      intro acc h
      have ha := h a (List.mem_cons_self a rest)
      have hrest : ∀ b ∈ rest, isTracedB b = false ∧ isKeyStringB b = false :=
        fun b hb => h b (List.mem_cons_of_mem a hb)
      cases a with
      | int k =>
          rw [show newLoop (GoVal.int k :: rest) acc = newLoop rest (intStep acc k) from rfl,
            ih (intStep acc k) hrest]
          rfl
      | str s =>
          have hkey : s.length = 32 ∧ isHexString s = true := by
            have h2 := ha.2
            simpa [isKeyStringB] using h2
          rw [show newLoop (GoVal.str s :: rest) acc =
            newLoop rest { acc with trace := s } from by
              rw [newLoop.eq_def]
              simp only [if_pos hkey]]
          rw [ih _ hrest]
          rfl
      | bool b =>
          rw [show newLoop (GoVal.bool b :: rest) acc =
            newLoop rest { acc with props := setProp acc.props "!BADKEY" (.bool b) } from by
              simp [newLoop, isGoError]]
          rw [ih _ hrest]
          rfl
      | otherv tag =>
          rw [show newLoop (GoVal.otherv tag :: rest) acc =
            newLoop rest { acc with props := setProp acc.props "!BADKEY" (.otherv tag) } from by
              simp [newLoop, isGoError]]
          rw [ih _ hrest]
          rfl
      | base i m =>
          rw [show newLoop (GoVal.base i m :: rest) acc =
            newLoop rest (errStep acc (.base i m)) from by simp [newLoop, isGoError]]
          rw [ih _ hrest, (errStep_not_traced acc (.base i m) rfl).1]
          rfl
      | errorf m ws =>
          rw [show newLoop (GoVal.errorf m ws :: rest) acc =
            newLoop rest (errStep acc (.errorf m ws)) from by simp [newLoop, isGoError]]
          rw [ih _ hrest, (errStep_not_traced acc (.errorf m ws) rfl).1]
          rfl
      | joined es =>
          rw [show newLoop (GoVal.joined es :: rest) acc =
            newLoop rest (errStep acc (.joined es)) from by simp [newLoop, isGoError]]
          rw [ih _ hrest, (errStep_not_traced acc (.joined es) rfl).1]
          rfl
      | traced te ts tsc ttr tpr =>
          exact absurd ha.1 (by simp [isTracedB])

theorem newLoop_badkey (post : List GoVal) :
    ∀ (v : GoVal) (acc : TE), (∀ a ∈ v :: post, isOtherTypeB a = true) →
    (newLoop (v :: post) acc).props =
      setProp acc.props "!BADKEY" ((v :: post).getLast (List.cons_ne_nil v post)) := by
  induction post with
  | nil =>
      intro v acc h
      have hv := h v (List.mem_cons_self v [])
      cases v <;> simp_all [newLoop, isGoError, isOtherTypeB, List.getLast]
  | cons w rest ih =>
      intro v acc h
      have hv := h v (List.mem_cons_self v (w :: rest))
      have hrest : ∀ a ∈ w :: rest, isOtherTypeB a = true :=
        fun a hb => h a (List.mem_cons_of_mem v hb)
      have hstep : newLoop (v :: w :: rest) acc =
          newLoop (w :: rest) { acc with props := setProp acc.props "!BADKEY" v } := by
        cases v <;> simp_all [newLoop, isGoError, isOtherTypeB]
      rw [hstep, ih w _ hrest]
      simp [setProp_setProp_same, List.getLast]

theorem StatusCode_traced (e : Option GoVal) (st : Option (List StackFrame)) (sc : Int)
    (tr : String) (pr : List (String × GoVal)) :
    StatusCode (Option.some (.traced e st sc tr pr)) = (if sc = 0 then 500 else sc) := rfl

/-! Helper lemmas about serialization. -/

theorem marshal_getWire (t : TE) :
    getWire (MarshalJSON t) "error" = Option.some (.jstr (errMsgOpt t.err))
  ∧ getWire (MarshalJSON t) "statusCode" =
      (if t.statusCode = 0 then Option.none else Option.some (.jint t.statusCode))
  ∧ getWire (MarshalJSON t) "stack" =
      (match t.stack with
       | Option.some st => Option.some (JVal.jstack st)
       | Option.none => Option.none)
  ∧ getWire (MarshalJSON t) "trace" =
      (if t.trace = "" ∨ t.trace = zeroTrace then Option.none else Option.some (.jstr t.trace)) := by
  refine ⟨?_, ?_, ?_, ?_⟩ <;>
    · simp only [MarshalJSON]
      by_cases h1 : t.statusCode = 0 <;>
        cases hst : t.stack <;>
          by_cases h2 : t.trace = "" <;>
            by_cases h3 : t.trace = zeroTrace <;>
              simp +decide [h1, hst, h2, h3, getWire_setWire_self, getWire_setWire_ne,
                getWire_delWire_self, getWire_delWire_ne]

theorem decode_marshal (t : TE) :
    (decodeStreamed (MarshalJSON t)).error = errMsgOpt t.err
  ∧ (decodeStreamed (MarshalJSON t)).statusCode = t.statusCode
  ∧ (decodeStreamed (MarshalJSON t)).trace = (if t.trace = zeroTrace then "" else t.trace)
  ∧ (decodeStreamed (MarshalJSON t)).stack = t.stack := by
  obtain ⟨he, hs, hk, ht⟩ := marshal_getWire t
  refine ⟨?_, ?_, ?_, ?_⟩
  · simp [decodeStreamed, he]
  · by_cases h1 : t.statusCode = 0 <;> simp [decodeStreamed, hs, h1]
  · by_cases h2 : t.trace = "" <;> by_cases h3 : t.trace = zeroTrace <;>
      simp_all [decodeStreamed, ht]
  · cases hst : t.stack <;> simp_all [decodeStreamed, hk]

theorem roundtrip_fields (t : TE) :
    (UnmarshalJSON (MarshalJSON t)).err = Option.some (.base 0 (errMsgOpt t.err))
  ∧ (UnmarshalJSON (MarshalJSON t)).statusCode = t.statusCode
  ∧ (UnmarshalJSON (MarshalJSON t)).trace = (if t.trace = zeroTrace then "" else t.trace)
  ∧ (UnmarshalJSON (MarshalJSON t)).stack = t.stack := by
  obtain ⟨he, hs, hk, ht⟩ := decode_marshal t
  exact ⟨by simp [UnmarshalJSON, he], by simp [UnmarshalJSON, hs],
    by simp [UnmarshalJSON, hk], by simp [UnmarshalJSON, ht]⟩

theorem unmarshal_props_reserved (w : List (String × JVal)) (k : String)
    (hk : k = "error" ∨ k = "statusCode" ∨ k = "stack" ∨ k = "trace") :
    getProp (UnmarshalJSON w).props k = Option.none := by
  have hm : getProp (UnmarshalJSON w).props k =
      (getWire (delWire (delWire (delWire (delWire w "error") "statusCode") "stack") "trace") k).map jToGo := by
    simp [UnmarshalJSON, getProp_map_jToGo]
  rw [hm]
  rcases hk with h | h | h | h <;> subst h <;>
    simp +decide [getWire_delWire_self, getWire_delWire_ne]

/-! Helper lemmas about list indexing for the heap model. -/

theorem get?_set_self (l : List TE) (p : Nat) (x : TE) (h : p < l.length) :
    (l.set p x).get? p = Option.some x := by
  induction l generalizing p with
  | nil => simp at h
  | cons a rest ih =>
      cases p with
      | zero => rfl
      | succ q =>
          simp only [List.length_cons, Nat.succ_lt_succ_iff] at h
          simpa [List.set, List.get?] using ih q h

theorem get?_set_ne (l : List TE) (p q : Nat) (x : TE) (h : q ≠ p) :
    (l.set p x).get? q = l.get? q := by
  induction l generalizing p q with
  | nil => simp
  | cons a rest ih =>
      cases p with
      | zero =>
          cases q with
          | zero => exact absurd rfl h
          | succ q2 => rfl
      | succ p2 =>
          cases q with
          | zero => rfl
          | succ q2 =>
              have : q2 ≠ p2 := fun hq => h (by simp [hq])
              simpa [List.set, List.get?] using ih p2 q2 this

/-! The claims. -/

/-- C4: every public operation is null-safe on null input and never raises:
`Trace(nil)` returns nil, `Convert(nil)` returns nil, `Join` with an empty or
all-nil input returns nil, and `StatusCode(nil)` returns 0.  (That none of
these operations can raise is reflected by every model function being total.)
-/
theorem public_ops_nil_safe :
    (∀ (fr : StackFrame) (a : List GoVal), Trace fr Option.none a = Option.none)
  ∧ Convert Option.none = Option.none
  ∧ (∀ fr : StackFrame, Join fr [] = Option.none)
  ∧ (∀ (fr : StackFrame) (errs : List (Option GoVal)),
      (∀ e ∈ errs, e = Option.none) → Join fr errs = Option.none)
  ∧ StatusCode Option.none = 0 := by
  refine ⟨fun fr a => rfl, rfl, fun fr => rfl, ?_, rfl⟩
  intro fr errs h
  have hfm : errs.filterMap id = [] := by
    rw [List.filterMap_eq_nil_iff]
    intro a ha
    simp [h a ha]
  simp [Join, hfm]

/-- Witness for C4 at concrete inputs. -/
theorem public_ops_nil_safe_witness :
    Trace frA Option.none [GoVal.int 404] = Option.none
  ∧ Join frA [Option.none, Option.none] = Option.none := by
  refine ⟨public_ops_nil_safe.1 frA [GoVal.int 404],
    public_ops_nil_safe.2.2.2.1 frA [Option.none, Option.none] ?_⟩
  intro e he
  simp at he
  exact he

/-- C6: `Convert` returns an error that already satisfies the augmented
contract unchanged except that a zero status code is normalized to 500;
applied to any other non-nil error it returns a fresh augmented wrapper with
status 500, the original error as cause, and an empty (nil) stack — so
`Convert` never adds a stack frame. -/
theorem convert_contract :
    (∀ (e : Option GoVal) (st : Option (List StackFrame)) (sc : Int) (tr : String)
       (pr : List (String × GoVal)),
       Convert (Option.some (.traced e st sc tr pr)) =
         Option.some (.traced e st (if sc = 0 then 500 else sc) tr pr))
  ∧ (∀ v : GoVal, isTracedB v = false →
       Convert (Option.some v) =
         Option.some (.traced (Option.some v) Option.none 500 "" [])) :=
  ⟨Convert_traced, Convert_not_traced⟩

/-- Witness for C6 at concrete inputs. -/
theorem convert_contract_witness :
    Convert (Option.some (.traced (Option.some (.base 1 "m")) Option.none 0 "" [])) =
      Option.some (.traced (Option.some (.base 1 "m")) Option.none 500 "" [])
  ∧ Convert (Option.some (.base 2 "w")) =
      Option.some (.traced (Option.some (.base 2 "w")) Option.none 500 "" []) := by
  refine ⟨?_, convert_contract.2 (.base 2 "w") rfl⟩
  have h := convert_contract.1 (Option.some (.base 1 "m")) Option.none 0 "" []
  simpa using h

/-- C7 counterexample: the claim says the stored status code is always in
[0, ∞), but `New` stores a negative integer argument as-is, so
`New("x", -1)` has stored status -1. -/
theorem negative_status_counterexample :
    storedStatus (New frA "x" [.int (-1)]) = -1
  ∧ storedStatus (New frA "x" [.int (-1)]) < 0 := by
  exact ⟨rfl, by decide⟩

/-- C7 amended: for every augmented error produced by `New`, `Trace`,
`Convert` or `Join` on non-nil input, the stored status code is never the
zero value (it can be negative when a negative integer argument is
supplied), and a status code equal to the zero value is treated as 500 at
read time via the accessor. -/
theorem status_nonzero_amended :
    (∀ (fr : StackFrame) (pattern : String) (args : List GoVal),
       storedStatus (New fr pattern args) ≠ 0)
  ∧ (∀ (fr : StackFrame) (e : GoVal) (a : List GoVal),
       storedStatus (Trace fr (Option.some e) a) ≠ 0)
  ∧ (∀ v : GoVal, storedStatus (Convert (Option.some v)) ≠ 0)
  ∧ (∀ (fr : StackFrame) (errs : List (Option GoVal)), Join fr errs ≠ Option.none →
       storedStatus (Join fr errs) ≠ 0)
  ∧ (∀ (e : Option GoVal) (st : Option (List StackFrame)) (tr : String)
       (pr : List (String × GoVal)),
       StatusCode (Option.some (.traced e st 0 tr pr)) = 500) := by
  have hnew : ∀ (fr : StackFrame) (pattern : String) (args : List GoVal),
      storedStatus (New fr pattern args) ≠ 0 := by
    intro fr pattern args
    rw [storedStatus_New]
    exact buildTE_status_ne_zero pattern args
  refine ⟨hnew, fun fr e a => hnew fr "" (e :: a), convert_status_ne_zero, ?_, ?_⟩
  · intro fr errs hne
    rcases hfm : errs.filterMap id with _ | ⟨a, _ | ⟨b, rest⟩⟩
    · simp [Join, hfm] at hne
    · rw [show Join fr errs = traceCaller fr (Option.some a) from by simp [Join, hfm],
        traceCaller_status]
      exact convert_status_ne_zero a
    · rw [show Join fr errs = traceCaller fr (stdJoin errs) from by simp [Join, hfm],
        show stdJoin errs = Option.some (.joined (a :: b :: rest)) from by simp [stdJoin, hfm],
        traceCaller_status]
      exact convert_status_ne_zero _
  · intro e st tr pr
    rw [StatusCode_traced]
    rfl

/-- Witness for C7's amended statement at concrete inputs. -/
theorem status_nonzero_amended_witness :
    storedStatus (New frA "m" []) ≠ 0
  ∧ storedStatus (Join frA [Option.some (.base 1 "a")]) ≠ 0
  ∧ StatusCode (Option.some (.traced (Option.some (.base 1 "a")) Option.none 0 "" [])) = 500 := by
  refine ⟨status_nonzero_amended.1 frA "m" [],
    status_nonzero_amended.2.2.2.1 frA [Option.some (.base 1 "a")]
      (fun h => Option.noConfusion h),
    status_nonzero_amended.2.2.2.2 (Option.some (.base 1 "a")) Option.none "" []⟩

/-- C10: `Convert` applied to an error that already satisfies the augmented
contract returns the identical instance (the same pointer), and when that
instance's status code is zero it writes 500 into the instance's own
status-code field in place, leaving all other fields (cause, stack, trace,
properties) and all other heap objects unchanged. -/
theorem convert_in_place (h : List TE) (p : Nat) (t : TE) (hp : h.get? p = Option.some t) :
    (ConvertHeap h p).2 = p
  ∧ (ConvertHeap h p).1.get? p =
      Option.some { t with statusCode := if t.statusCode = 0 then 500 else t.statusCode }
  ∧ (∀ q, q ≠ p → (ConvertHeap h p).1.get? q = h.get? q)
  ∧ ({ t with statusCode := if t.statusCode = 0 then 500 else t.statusCode }.err = t.err
    ∧ { t with statusCode := if t.statusCode = 0 then 500 else t.statusCode }.stack = t.stack
    ∧ { t with statusCode := if t.statusCode = 0 then 500 else t.statusCode }.trace = t.trace
    ∧ { t with statusCode := if t.statusCode = 0 then 500 else t.statusCode }.props = t.props) := by
  have hlen : p < h.length := by
    rcases Nat.lt_or_ge p h.length with h1 | h1
    · exact h1
    · rw [List.get?_eq_none.mpr h1] at hp
      cases hp
  have hch : ConvertHeap h p =
      (if t.statusCode = 0 then (h.set p { t with statusCode := 500 }, p) else (h, p)) := by
    unfold ConvertHeap
    rw [hp]
  by_cases hsc : t.statusCode = 0
  · rw [hch, if_pos hsc]
    refine ⟨rfl, ?_, ?_, rfl, rfl, rfl, rfl⟩
    · rw [get?_set_self _ _ _ hlen, if_pos hsc]
    · intro q hq
      exact get?_set_ne h p q _ hq
  · rw [hch, if_neg hsc]
    refine ⟨rfl, ?_, fun q hq => rfl, rfl, rfl, rfl, rfl⟩
    rw [hp, if_neg hsc]

/-- Witness for C10 at a concrete one-object heap. -/
theorem convert_in_place_witness :
    (ConvertHeap [⟨Option.some (.base 1 "m"), Option.none, 0, "", []⟩] 0).2 = 0
  ∧ (ConvertHeap [⟨Option.some (.base 1 "m"), Option.none, 0, "", []⟩] 0).1.get? 0 =
      Option.some ⟨Option.some (.base 1 "m"), Option.none, 500, "", []⟩ := by
  have h := convert_in_place [⟨Option.some (.base 1 "m"), Option.none, 0, "", []⟩] 0
    ⟨Option.some (.base 1 "m"), Option.none, 0, "", []⟩ rfl
  exact ⟨h.1, by simpa using h.2.1⟩

/-- C1 counterexample: the claim says that when no integer argument is
supplied the status code defaults to 500, but `Trace` of a traced error that
carries status 409, with no integer argument at all, stores 409. -/
theorem trace_inherits_status_counterexample :
    storedStatus (Trace frA
      (Option.some (.traced (Option.some (.base 1 "boom")) Option.none 409 "" [])) []) = 409
  ∧ (409 : Int) ≠ 500 := by
  exact ⟨rfl, by decide⟩

/-- C1 amended: when none of the classified arguments (those left after the
format parameters are consumed) is an augmented error or a property-key
string, the stored status code is the last classified integer argument when
that is nonzero, and 500 when it is zero or when there is no integer
argument; the `StatusCode` accessor returns exactly the stored value. -/
theorem new_last_int_status_amended (fr : StackFrame) (pattern : String) (args : List GoVal)
    (h : ∀ a ∈ args.drop (pctCount pattern args),
      isTracedB a = false ∧ isKeyStringB a = false) :
    storedStatus (New fr pattern args) =
      (if lastIntD 0 (args.drop (pctCount pattern args)) = 0 then 500
       else lastIntD 0 (args.drop (pctCount pattern args)))
  ∧ StatusCode (New fr pattern args) = storedStatus (New fr pattern args) := by
  constructor
  · rw [storedStatus_New, buildTE_statusCode]
    rw [show (loopTE pattern args).statusCode
        = lastIntD 0 (args.drop (pctCount pattern args)) from by
      rw [loopTE, newLoop_status_lastInt _ _ h]
      rfl]
  · rw [New_eq, StatusCode_traced, if_neg (buildTE_status_ne_zero pattern args)]
    rfl

/-- Witness for C1's amended statement: three integer arguments, the last
one winning. -/
theorem new_last_int_status_amended_witness :
    storedStatus (New frA "m" [.int 5, .int 6, .int 7]) = 7
  ∧ StatusCode (New frA "m" [.int 5, .int 6, .int 7]) = 7 := by
  have h := new_last_int_status_amended frA "m" [.int 5, .int 6, .int 7]
    (by intro a ha; fin_cases ha <;> exact ⟨rfl, rfl⟩)
  have h1 : storedStatus (New frA "m" [.int 5, .int 6, .int 7]) = 7 := by
    rw [h.1]
    rfl
  exact ⟨h1, by rw [h.2, h1]⟩

/-- C2: when a classified argument is itself an augmented error, its status
code is copied only if none is set yet, its trace ID is copied only if the
accumulating one is unset or the all-zero placeholder, its properties are
merged into the accumulating bag, and its stack replaces the accumulating
stack wholesale; consequently a nonzero integer argument before the merged
error wins over the merged error's status code, an integer after it
overwrites it, and with no integer argument the merged error's status code
is inherited. -/
theorem new_merge_traced_semantics :
    (∀ (acc : TE) (te : Option GoVal) (ts : Option (List StackFrame)) (tsc : Int)
       (ttr : String) (tpr : List (String × GoVal)),
       (errStep acc (.traced te ts tsc ttr tpr)).statusCode =
           (if acc.statusCode = 0 then tsc else acc.statusCode)
     ∧ (errStep acc (.traced te ts tsc ttr tpr)).trace =
           (if acc.trace = "" ∨ acc.trace = zeroTrace then ttr else acc.trace)
     ∧ (errStep acc (.traced te ts tsc ttr tpr)).stack = ts
     ∧ ((tpr.map Prod.fst).Nodup → ∀ k,
           getProp (errStep acc (.traced te ts tsc ttr tpr)).props k =
             (getProp tpr k).or (getProp acc.props k)))
  ∧ (∀ (fr : StackFrame) (c : Int), c ≠ 0 → ∀ (te : Option GoVal)
       (ts : Option (List StackFrame)) (tsc : Int) (ttr : String)
       (tpr : List (String × GoVal)),
       storedStatus (New fr "e" [.int c, .traced te ts tsc ttr tpr]) = c
     ∧ storedStatus (New fr "e" [.traced te ts tsc ttr tpr, .int c]) = c)
  ∧ (∀ (fr : StackFrame) (te : Option GoVal) (ts : Option (List StackFrame)) (tsc : Int)
       (ttr : String) (tpr : List (String × GoVal)),
       storedStatus (New fr "e" [.traced te ts tsc ttr tpr]) =
         (if tsc = 0 then 500 else tsc)) := by
  refine ⟨?_, ?_, ?_⟩
  · intro acc te ts tsc ttr tpr
    obtain ⟨h1, h2, h3, h4⟩ := errStep_traced acc te ts tsc ttr tpr
    refine ⟨h1, h2, h3, ?_⟩
    intro hnd k
    rw [h4, getProp_mapsCopy _ _ _ hnd]
  · intro fr c hc te ts tsc ttr tpr
    constructor
    · rw [storedStatus_New, buildTE_statusCode,
        show (loopTE "e" [.int c, .traced te ts tsc ttr tpr]).statusCode
          = (if c = 0 then tsc else c) from rfl]
      simp [hc]
    · rw [storedStatus_New, buildTE_statusCode,
        show (loopTE "e" [.traced te ts tsc ttr tpr, .int c]).statusCode = c from rfl]
      simp [hc]
  · intro fr te ts tsc ttr tpr
    rw [storedStatus_New, buildTE_statusCode,
      show (loopTE "e" [.traced te ts tsc ttr tpr]).statusCode = tsc from rfl]

/-- Witness for C2 at concrete inputs. -/
theorem new_merge_traced_semantics_witness :
    (errStep ⟨Option.none, Option.none, 0, "", []⟩
      (.traced (Option.some (.base 1 "b")) (Option.some []) 409 zeroTrace
        [("k", GoVal.str "v")])).statusCode = 409
  ∧ getProp (errStep ⟨Option.none, Option.none, 0, "", []⟩
      (.traced (Option.some (.base 1 "b")) (Option.some []) 409 zeroTrace
        [("k", GoVal.str "v")])).props "k" = Option.some (GoVal.str "v")
  ∧ storedStatus (New frA "e"
      [.int 400, .traced (Option.some (.base 1 "b")) Option.none 409 "" []]) = 400
  ∧ storedStatus (New frA "e"
      [.traced (Option.some (.base 1 "b")) Option.none 409 "" [], .int 400]) = 400
  ∧ storedStatus (New frA "e"
      [.traced (Option.some (.base 1 "b")) Option.none 409 "" []]) = 409 := by
  obtain ⟨h1, _, _, h4⟩ := new_merge_traced_semantics.1 ⟨Option.none, Option.none, 0, "", []⟩
    (Option.some (.base 1 "b")) (Option.some []) 409 zeroTrace [("k", GoVal.str "v")]
  obtain ⟨h5, h6⟩ := new_merge_traced_semantics.2.1 frA 400 (by decide)
    (Option.some (.base 1 "b")) Option.none 409 "" []
  have h7 := new_merge_traced_semantics.2.2 frA
    (Option.some (.base 1 "b")) Option.none 409 "" []
  refine ⟨by simpa using h1, ?_, h5, h6, by simpa using h7⟩
  have h8 := h4 (by simp) "k"
  rw [h8]
  rfl

/-- C3: `Join` filters out nil inputs; with zero non-nil inputs it returns
nil; with exactly one non-nil input (here, one satisfying the augmented
contract with a nonzero status) it returns that error with one stack frame
appended, preserving its stack, status and properties; with two or more
non-nil inputs it returns an aggregate with a single fresh stack frame,
default status 500 and no properties, whose `Is` containment test succeeds
against every non-nil input and transitively against everything any of them
contains (in particular through inputs that are themselves aggregates). -/
theorem join_spec (fr : StackFrame) (errs : List (Option GoVal)) :
    (errs.filterMap id = [] → Join fr errs = Option.none)
  ∧ (∀ (e : Option GoVal) (st : Option (List StackFrame)) (sc : Int) (tr : String)
       (pr : List (String × GoVal)), sc ≠ 0 →
       errs.filterMap id = [.traced e st sc tr pr] →
       Join fr errs = Option.some (.traced e (Option.some (st.getD [] ++ [fr])) sc tr pr))
  ∧ (∀ v : GoVal, isTracedB v = false → errs.filterMap id = [v] →
       Join fr errs = Option.some (.traced (Option.some v) (Option.some [fr]) 500 "" []))
  ∧ (2 ≤ (errs.filterMap id).length →
       storedStatus (Join fr errs) = 500
     ∧ storedStack (Join fr errs) = Option.some [fr]
     ∧ storedProps (Join fr errs) = []
     ∧ (∀ v : GoVal, Option.some v ∈ errs → OptErrIs (Join fr errs) v)
     ∧ (∀ v x : GoVal, Option.some v ∈ errs → ErrIs v x → OptErrIs (Join fr errs) x)) := by
  refine ⟨?_, ?_, ?_, ?_⟩
  · intro h
    simp [Join, h]
  · intro e st sc tr pr hsc h
    rw [show Join fr errs = traceCaller fr (Option.some (.traced e st sc tr pr)) from by
        simp [Join, h],
      traceCaller_traced, if_neg hsc]
    rfl
  · intro v hv h
    rw [show Join fr errs = traceCaller fr (Option.some v) from by simp [Join, h],
      traceCaller_not_traced fr v hv]
  · intro hlen
    rcases hfm : errs.filterMap id with _ | ⟨a, _ | ⟨b, rest⟩⟩
    · rw [hfm] at hlen
      simp at hlen
    · rw [hfm] at hlen
      simp at hlen
    · have hJ : Join fr errs = Option.some
          (.traced (Option.some (.joined (a :: b :: rest))) (Option.some [fr]) 500 "" []) := by
        rw [show Join fr errs = traceCaller fr (stdJoin errs) from by simp [Join, hfm],
          show stdJoin errs = Option.some (.joined (a :: b :: rest)) from by
            simp [stdJoin, hfm],
          traceCaller_not_traced fr (.joined (a :: b :: rest)) rfl]
      have hmem : ∀ v : GoVal, Option.some v ∈ errs → v ∈ a :: b :: rest := by
        intro v hv
        rw [← hfm]
        exact List.mem_filterMap.mpr ⟨Option.some v, hv, rfl⟩
      refine ⟨by rw [hJ]; rfl, by rw [hJ]; rfl, by rw [hJ]; rfl, ?_, ?_⟩
      · intro v hv
        rw [hJ]
        exact ErrIs.tracedStep (ErrIs.joinedStep (hmem v hv) (ErrIs.eq v))
      · intro v x hv hvx
        rw [hJ]
        exact ErrIs.tracedStep (ErrIs.joinedStep (hmem v hv) hvx)

/-- Witness for C3: the three branches at concrete inputs, including the
transitive containment through an input that is itself an aggregate. -/
theorem join_spec_witness :
    Join frA [Option.none] = Option.none
  ∧ Join frA [Option.some (.traced (Option.some (.base 3 "T")) Option.none 404 "" []),
      Option.none] =
      Option.some (.traced (Option.some (.base 3 "T")) (Option.some [frA]) 404 "" [])
  ∧ Join frA [Option.some (.base 9 "P")] =
      Option.some (.traced (Option.some (.base 9 "P")) (Option.some [frA]) 500 "" [])
  ∧ storedStatus (Join frA [Option.some (.base 1 "E1"), Option.none,
      Option.some (.joined [.base 4 "E4a", .base 5 "E4b"])]) = 500
  ∧ OptErrIs (Join frA [Option.some (.base 1 "E1"), Option.none,
      Option.some (.joined [.base 4 "E4a", .base 5 "E4b"])]) (.base 1 "E1")
  ∧ OptErrIs (Join frA [Option.some (.base 1 "E1"), Option.none,
      Option.some (.joined [.base 4 "E4a", .base 5 "E4b"])]) (.base 4 "E4a") := by
  refine ⟨(join_spec frA [Option.none]).1 rfl,
    (join_spec frA _).2.1 (Option.some (.base 3 "T")) Option.none 404 "" []
      (by decide) rfl, ?_, ?_, ?_, ?_⟩
  · exact (join_spec frA _).2.2.1 (.base 9 "P") rfl rfl
  · exact ((join_spec frA _).2.2.2 (by decide)).1
  · exact ((join_spec frA _).2.2.2 (by decide)).2.2.2.1 (.base 1 "E1")
      (List.mem_cons_self _ _)
  · refine ((join_spec frA _).2.2.2 (by decide)).2.2.2.2
      (.joined [.base 4 "E4a", .base 5 "E4b"]) (.base 4 "E4a") ?_ ?_
    · simp
    · exact ErrIs.joinedStep (List.mem_cons_self _ _) (ErrIs.eq _)

/-- C5 counterexample: the claim says serializing and deserializing preserves
the trace ID for every augmented error, but a trace ID equal to the all-zero
placeholder is omitted on the wire and restored as the empty string. -/
theorem roundtrip_zero_trace_counterexample :
    (UnmarshalJSON (MarshalJSON
      ⟨Option.some (.base 1 "m"), Option.none, 500, zeroTrace, []⟩)).trace = ""
  ∧ (⟨Option.some (.base 1 "m"), Option.none, 500, zeroTrace, []⟩ : TE).trace = zeroTrace
  ∧ ("" : String) ≠ zeroTrace := by
  exact ⟨rfl, rfl, by decide⟩

/-- C5 amended: for every augmented error with a non-nil cause, serializing
to the structured form and deserializing preserves the message string and
the status code, and preserves the trace ID except that the all-zero
placeholder comes back as the empty string; the cause is restored as a
freshly synthesized generic error carrying only the message text, so the
original cause's shape and wrapped sub-chain are not recovered. -/
theorem marshal_roundtrip_amended (t : TE) (c : GoVal) (hc : t.err = Option.some c) :
    errMsgOpt (UnmarshalJSON (MarshalJSON t)).err = errMsg c
  ∧ (UnmarshalJSON (MarshalJSON t)).err = Option.some (.base 0 (errMsg c))
  ∧ (UnmarshalJSON (MarshalJSON t)).statusCode = t.statusCode
  ∧ (UnmarshalJSON (MarshalJSON t)).trace = (if t.trace = zeroTrace then "" else t.trace) := by
  obtain ⟨he, hs, ht, _⟩ := roundtrip_fields t
  rw [hc] at he
  refine ⟨?_, ?_, hs, ht⟩
  · rw [he]
    rfl
  · rw [he]
    rfl

/-- Witness for C5's amended statement: a cause with a wrapped sub-chain
comes back as a flat generic error with the same message. -/
theorem marshal_roundtrip_amended_witness :
    (UnmarshalJSON (MarshalJSON ⟨Option.some (.errorf "a: b" [.base 1 "b"]), Option.none,
      404, "", []⟩)).err = Option.some (.base 0 "a: b")
  ∧ (UnmarshalJSON (MarshalJSON ⟨Option.some (.errorf "a: b" [.base 1 "b"]), Option.none,
      404, "", []⟩)).statusCode = 404
  ∧ (UnmarshalJSON (MarshalJSON ⟨Option.some (.errorf "a: b" [.base 1 "b"]), Option.none,
      404, "", []⟩)).trace = "" := by
  have h := marshal_roundtrip_amended
    ⟨Option.some (.errorf "a: b" [.base 1 "b"]), Option.none, 404, "", []⟩
    (.errorf "a: b" [.base 1 "b"]) rfl
  refine ⟨?_, h.2.2.1, ?_⟩
  · rw [h.2.1]
    rfl
  · rw [h.2.2.2]
    rfl

/-- C8 counterexample: the claim says the value of every argument of another
type is recorded, even when several appear in one call, but all of them
share the single `!BADKEY` sentinel key, so a later one overwrites an
earlier one: after `New("m", true, false)` the first value `true` is
recorded nowhere. -/
theorem badkey_overwrite_counterexample :
    storedProps (New frA "m" [.bool true, .bool false]) = [("!BADKEY", GoVal.bool false)]
  ∧ (∀ k, getProp (storedProps (New frA "m" [.bool true, .bool false])) k ≠
      Option.some (GoVal.bool true)) := by
  have hp : storedProps (New frA "m" [.bool true, .bool false]) =
      [("!BADKEY", GoVal.bool false)] := rfl
  refine ⟨hp, ?_⟩
  intro k
  rw [hp]
  by_cases h : ("!BADKEY" : String) = k <;> simp [getProp, h]

/-- C8 amended: every argument of another type is stored under the fixed
sentinel key `!BADKEY`, with later such arguments overwriting earlier ones,
so only the last such value survives; with a single such argument nothing is
dropped, as in the spec's scenario `New("msg", false, "dur", 1000)`, which
yields exactly the two properties `!BADKEY = false` and `dur = 1000`. -/
theorem badkey_sentinel_amended :
    (∀ (fr : StackFrame) (pattern : String) (vs : List GoVal) (hne : vs ≠ []),
       countPct pattern.data = 0 → (∀ a ∈ vs, isOtherTypeB a = true) →
       storedProps (New fr pattern vs) = [("!BADKEY", vs.getLast hne)])
  ∧ (∀ fr : StackFrame,
       storedProps (New fr "msg" [.bool false, .str "dur", .int 1000]) =
         [("!BADKEY", GoVal.bool false), ("dur", GoVal.int 1000)]) := by
  constructor
  · intro fr pattern vs hne hp hall
    rw [storedProps_New, buildTE_props]
    have hdrop : vs.drop (pctCount pattern vs) = vs := by
      simp [pctCount, hp]
    rw [loopTE, hdrop]
    obtain ⟨v, rest, rfl⟩ : ∃ v rest, vs = v :: rest := by
      cases vs with
      | nil => exact absurd rfl hne
      | cons v rest => exact ⟨v, rest, rfl⟩
    rw [newLoop_badkey rest v (initTE pattern (v :: rest)) hall]
    rfl
  · intro fr
    rw [storedProps_New]
    rfl

/-- Witness for C8's amended statement: two boolean arguments, the last one
surviving under the sentinel key, and the spec's concrete scenario. -/
theorem badkey_sentinel_amended_witness :
    storedProps (New frA "m" [.bool true, .otherv 9]) = [("!BADKEY", GoVal.otherv 9)]
  ∧ storedProps (New frA "msg" [.bool false, .str "dur", .int 1000]) =
      [("!BADKEY", GoVal.bool false), ("dur", GoVal.int 1000)] := by
  refine ⟨?_, badkey_sentinel_amended.2 frA⟩
  have h := badkey_sentinel_amended.1 frA "m" [.bool true, .otherv 9]
    (List.cons_ne_nil _ _) rfl (by intro a ha; fin_cases ha <;> rfl)
  rw [h]
  rfl

/-- C9 counterexample: the claim says the structured form's field always
holds the built-in value when a property uses a reserved key, but when the
built-in trace is unset the `trace` key is deleted from the wire map
entirely, so the field is absent even though a `trace` property existed. -/
theorem reserved_key_omitted_counterexample :
    getProp ((⟨Option.some (.base 1 "m"), Option.none, 500, "",
      [("trace", GoVal.str "x")]⟩ : TE)).props "trace" = Option.some (GoVal.str "x")
  ∧ getWire (MarshalJSON ⟨Option.some (.base 1 "m"), Option.none, 500, "",
      [("trace", GoVal.str "x")]⟩) "trace" = Option.none := by
  exact ⟨rfl, rfl⟩

/-- C9 amended: for every augmented error with a non-nil cause, the
structured form's `error`, `statusCode`, `stack` and `trace` fields hold the
built-in values whenever those are set and are omitted entirely when unset
— a property under one of these reserved keys never contributes its value —
and after deserialization each reserved key is absent from the restored
property bag. -/
theorem reserved_keys_amended (t : TE) (c : GoVal) (hc : t.err = Option.some c) :
    getWire (MarshalJSON t) "error" = Option.some (.jstr (errMsg c))
  ∧ getWire (MarshalJSON t) "statusCode" =
      (if t.statusCode = 0 then Option.none else Option.some (.jint t.statusCode))
  ∧ getWire (MarshalJSON t) "stack" =
      (match t.stack with
       | Option.some st => Option.some (JVal.jstack st)
       | Option.none => Option.none)
  ∧ getWire (MarshalJSON t) "trace" =
      (if t.trace = "" ∨ t.trace = zeroTrace then Option.none
       else Option.some (.jstr t.trace))
  ∧ (∀ k, k = "error" ∨ k = "statusCode" ∨ k = "stack" ∨ k = "trace" →
      getProp (UnmarshalJSON (MarshalJSON t)).props k = Option.none) := by
  obtain ⟨he, hs, hk, ht⟩ := marshal_getWire t
  rw [hc] at he
  exact ⟨he, hs, hk, ht, fun k hk2 => unmarshal_props_reserved _ k hk2⟩

/-- Witness for C9's amended statement at a concrete error carrying
properties under every reserved key. -/
theorem reserved_keys_amended_witness :
    getWire (MarshalJSON ⟨Option.some (.base 1 "m"), Option.none, 404, "",
      [("stack", GoVal.bool true), ("error", GoVal.str "fake")]⟩) "error" =
      Option.some (.jstr "m")
  ∧ getWire (MarshalJSON ⟨Option.some (.base 1 "m"), Option.none, 404, "",
      [("stack", GoVal.bool true), ("error", GoVal.str "fake")]⟩) "statusCode" =
      Option.some (.jint 404)
  ∧ getProp (UnmarshalJSON (MarshalJSON ⟨Option.some (.base 1 "m"), Option.none, 404, "",
      [("stack", GoVal.bool true), ("error", GoVal.str "fake")]⟩)).props "stack" =
      Option.none := by
  have h := reserved_keys_amended
    ⟨Option.some (.base 1 "m"), Option.none, 404, "",
      [("stack", GoVal.bool true), ("error", GoVal.str "fake")]⟩ (.base 1 "m") rfl
  refine ⟨?_, ?_, h.2.2.2.2 "stack" (Or.inr (Or.inr (Or.inl rfl)))⟩
  · rw [h.1]
    rfl
  · rw [h.2.1]
    rfl
